import Mathlib

/-!
Shallow embedding of the subscription service core
(`subscriptions/models.py`, `subscriptions/serializers.py`,
`subscriptions/views.py`, `subscriptions/signals.py`).

Modelling conventions:
* Database rows are Lean structures; the store is a list of rows.
* Time is an abstract tick counter (`Nat`); each operation happens at a
  strictly later tick than the previous one (`Reach` below), matching the
  strictly increasing wall-clock timestamps `timezone.now()` produces at
  distinct operations.
* The Django low-level cache is an association list from keys to values;
  `cache.delete` / `cache.set` / `cache.get` are `cacheDelete` / `cacheSet` /
  `cacheGet`.  The `cache_page` whole-response cache on the subscription
  `list` endpoint (varying on the Authorization header, i.e. per user) is an
  extra key `CacheKey.pageListSubscriptions uid` in the same map.
* `@transaction.atomic` writes are pure functions returning either a new
  state (commit) or the unchanged input state together with an error
  (rollback): all-or-nothing by construction.
* Users are opaque identifiers (`Nat`); the serializer field `user_email`
  identifies the owning user, so the projection carries the owner id.
-/

/-- A row of `subscription_feature` (`models.Feature`). -/
structure Feature where
  id : Nat
  name : String
  description : String
  is_active : Bool
deriving Repr, DecidableEq

/-- A row of `subscription_plan` (`models.Plan`); `featureIds` is the
many-to-many relation to `Feature`, `price` is in cents (optional). -/
structure Plan where
  id : Nat
  name : String
  description : String
  price : Option Nat
  featureIds : List Nat
  is_active : Bool
deriving Repr, DecidableEq

/-- A row of `subscription_subscription` (`models.Subscription`). -/
structure Subscription where
  id : Nat
  user : Nat
  planId : Nat
  start_date : Nat
  end_date : Option Nat
  is_active : Bool
  notes : String
  created_at : Nat
  updated_at : Nat
deriving Repr, DecidableEq

/-- Projection of a `Feature` (`FeatureSerializer`). -/
structure FeatureView where
  id : Nat
  name : String
  is_active : Bool
deriving Repr, DecidableEq

/-- Projection of a `Plan` (`PlanSerializer`). -/
structure PlanView where
  id : Nat
  name : String
  price : Option Nat
  features : List FeatureView
  feature_count : Nat
  is_active : Bool
deriving Repr, DecidableEq

/-- Projection of a `Subscription` (`SubscriptionListSerializer`). -/
structure SubscriptionView where
  id : Nat
  user_email : Nat
  plan : PlanView
  start_date : Nat
  end_date : Option Nat
  is_active : Bool
  duration_days : Nat
deriving Repr, DecidableEq

/-- Keys of the cache.  `userSubscriptions uid` is
`user_subscriptions_<uid>`, `activeSubscription uid` is
`active_subscription_<uid>`; `pageListSubscriptions uid` is the
`cache_page` whole-response entry of the list endpoint for the user
identified by the Authorization header. -/
inductive CacheKey where
  | userSubscriptions (uid : Nat)
  | activeSubscription (uid : Nat)
  | pageListSubscriptions (uid : Nat)
  | planDetail (pid : Nat)
  | plansList
deriving Repr, DecidableEq

/-- Values stored in the cache (serialized response data). -/
inductive CacheVal where
  | listVal (views : List SubscriptionView)
  | oneVal (v : SubscriptionView)
deriving Repr, DecidableEq

/-- The observable state: entity store plus cache. -/
structure St where
  features : List Feature
  plans : List Plan
  subs : List Subscription
  nextSubId : Nat
  cache : List (CacheKey × CacheVal)
deriving Repr, DecidableEq

/-- `cache.get(k)`. -/
def cacheGet (c : List (CacheKey × CacheVal)) (k : CacheKey) : Option CacheVal :=
  (c.find? (fun p => p.1 == k)).map (·.2)

/-- `cache.delete(k)`. -/
def cacheDelete (c : List (CacheKey × CacheVal)) (k : CacheKey) :
    List (CacheKey × CacheVal) :=
  c.filter (fun p => p.1 != k)

/-- `cache.set(k, v, timeout)` (TTL not modelled; all reads in scope
happen inside every TTL window). -/
def cacheSet (c : List (CacheKey × CacheVal)) (k : CacheKey) (v : CacheVal) :
    List (CacheKey × CacheVal) :=
  (k, v) :: cacheDelete c k

/-- `Plan.objects.get(pk=pid)`: the plan row with primary key `pid`. -/
def lookupPlan (st : St) (pid : Nat) : Option Plan :=
  st.plans.find? (fun p => p.id == pid)

/-- `plan.features.all()`: the features related to `p`. -/
def planFeatures (st : St) (p : Plan) : List Feature :=
  st.features.filter (fun f => p.featureIds.contains f.id)

/-- Name order on features (`order_by("name")`, `Feature.Meta.ordering`). -/
def featureLe (a b : Feature) : Prop := a.name ≤ b.name

instance : DecidableRel featureLe := fun a b =>
  inferInstanceAs (Decidable (a.name ≤ b.name))

instance : IsTotal Feature featureLe := ⟨fun a b => le_total a.name b.name⟩

instance : IsTrans Feature featureLe :=
  ⟨fun _ _ _ h h' => le_trans (α := String) h h'⟩

/-- Descending start-date order on subscriptions
(`order_by("-start_date")` in `SubscriptionViewSet.get_queryset`). -/
def subStartGe (a b : Subscription) : Prop := b.start_date ≤ a.start_date

instance : DecidableRel subStartGe := fun a b =>
  inferInstanceAs (Decidable (b.start_date ≤ a.start_date))

instance : IsTotal Subscription subStartGe :=
  ⟨fun a b => (Nat.le_total a.start_date b.start_date).symm⟩

instance : IsTrans Subscription subStartGe :=
  ⟨fun _ _ _ h h' => Nat.le_trans h' h⟩

/-- `FeatureSerializer` fields. -/
def featureView (f : Feature) : FeatureView :=
  { id := f.id, name := f.name, is_active := f.is_active }

/-- `PlanSerializer.get_feature_count`:
`obj.features.filter(is_active=True).count()`. -/
def activeFeatureCount (st : St) (p : Plan) : Nat :=
  ((planFeatures st p).filter (·.is_active)).length

/-- Plan projection inside the subscription read view: the viewset
prefetches `plan__features` with
`Feature.objects.filter(is_active=True).order_by("name")`, so the nested
feature list holds only active features sorted by name. -/
def planViewForSubscription (st : St) (p : Plan) : PlanView :=
  { id := p.id, name := p.name, price := p.price,
    features :=
      (List.insertionSort featureLe ((planFeatures st p).filter (·.is_active))).map
        featureView,
    feature_count := activeFeatureCount st p,
    is_active := p.is_active }

/-- Plan projection in `PlanViewSet` (list and retrieve): the queryset
uses a plain `prefetch_related("features")`, so the nested feature list
holds all of the plan's features, in `Feature.Meta` name order. -/
def planViewDetail (st : St) (p : Plan) : PlanView :=
  { id := p.id, name := p.name, price := p.price,
    features := (List.insertionSort featureLe (planFeatures st p)).map featureView,
    feature_count := activeFeatureCount st p,
    is_active := p.is_active }

/-- `SubscriptionListSerializer`: projects one subscription row at read
time `now` (`duration_days` recomputed at read time).  The plan row is
resolved through the foreign key, which the store guarantees to exist;
the `getD` default is never reached on states with referential
integrity. -/
def subscriptionView (st : St) (now : Nat) (s : Subscription) : SubscriptionView :=
  { id := s.id, user_email := s.user,
    plan := planViewForSubscription st
      ((lookupPlan st s.planId).getD
        { id := s.planId, name := "", description := "", price := none,
          featureIds := [], is_active := false }),
    start_date := s.start_date, end_date := s.end_date, is_active := s.is_active,
    duration_days := (s.end_date.getD now) - s.start_date }

/-- `.filter(user=request.user)`: the requesting user's rows. -/
def userSubs (st : St) (uid : Nat) : List Subscription :=
  st.subs.filter (fun s => s.user == uid)

/-- The list projection built on a cache miss of the list endpoint:
`get_queryset()` (user-scoped, `order_by("-start_date")`) serialized by
`SubscriptionListSerializer`. -/
def listFor (st : St) (now uid : Nat) : List SubscriptionView :=
  (List.insertionSort subStartGe (userSubs st uid)).map (subscriptionView st now)

/-- `Subscription.objects.filter(user=user, is_active=True).first()`;
`Subscription.Meta.ordering` is `-created_at`, and rows are appended in
creation order, so `first()` is the head of the reversed filtered list. -/
def firstActiveFor (st : St) (uid : Nat) : Option Subscription :=
  ((st.subs.filter (fun s => s.user == uid && s.is_active)).reverse).head?

/-- `self.get_object()`: primary-key lookup inside the user-scoped
queryset; missing rows and other users' rows give 404. -/
def getObject (st : St) (uid sid : Nat) : Option Subscription :=
  st.subs.find? (fun s => s.id == sid && s.user == uid)

/-- `count(Subscription where user=uid and is_active=true)`. -/
def countActive (st : St) (uid : Nat) : Nat :=
  (st.subs.filter (fun s => s.user == uid && s.is_active)).length

/-- `signals.subscription_post_save` / `subscription_post_delete`:
delete both per-user low-level cache keys. -/
def clearUserCache (c : List (CacheKey × CacheVal)) (uid : Nat) :
    List (CacheKey × CacheVal) :=
  cacheDelete (cacheDelete c (CacheKey.userSubscriptions uid))
    (CacheKey.activeSubscription uid)

/-- `instance.save()`: replace the row with the same primary key and fire
the `post_save` signal (which clears the owner's user-scoped keys). -/
def saveSubscription (st : St) (s : Subscription) : St :=
  { st with
    subs := st.subs.map (fun x => if x.id == s.id then s else x),
    cache := clearUserCache st.cache s.user }

/-- `Subscription.objects.create(...)`: insert a fresh row and fire the
`post_save` signal. -/
def insertSubscription (st : St) (s : Subscription) : St :=
  { st with
    subs := st.subs ++ [s],
    nextSubId := st.nextSubId + 1,
    cache := clearUserCache st.cache s.user }

/-- Field changes of `Subscription.deactivate` on an active row:
`is_active = False`, `end_date = now`, append the reason to notes if one
was given (`f"{notes}\n{reason}".strip()`), `updated_at` refreshed. -/
def Subscription.deactivateFields (s : Subscription) (now : Nat) (reason : String) :
    Subscription :=
  { s with is_active := false, end_date := some now,
           notes := if reason = "" then s.notes
                    else (s.notes ++ "\n" ++ reason).trim,
           updated_at := now }

/-- `Subscription.deactivate(notes=reason)`: early return (no save, no
signal, only a log line) when the row is already inactive; otherwise set
the fields and save. -/
def deactivateSubscription (st : St) (s : Subscription) (now : Nat)
    (reason : String) : St :=
  if s.is_active then saveSubscription st (s.deactivateFields now reason) else st

/-- The freshly inserted row of `Subscription.objects.create(user=user,
plan=plan)`: `start_date` and the audit timestamps are `auto_now_add` /
`auto_now`, `is_active` defaults to true, `end_date` to null. -/
def newSubRow (nid now uid pid : Nat) : Subscription :=
  { id := nid, user := uid, planId := pid, start_date := now,
    end_date := none, is_active := true, notes := "",
    created_at := now, updated_at := now }

/-- The `if existing_subscription:` block of
`SubscriptionCreateSerializer.create`: deactivate the user's existing
active subscription, if any. -/
def deactivateExisting (st : St) (now uid : Nat) : St :=
  match firstActiveFor st uid with
  | some existing => deactivateSubscription st existing now ""
  | none => st

/-- `SubscriptionCreateSerializer` (`validate_plan` + `create`, inside
`@transaction.atomic`): reject an unknown or inactive plan with no state
change; otherwise deactivate the user's existing active subscription (if
any), insert the new active row, and explicitly delete the user's list
cache key.  Returns the new row's primary key. -/
def createSubscription (st : St) (now uid pid : Nat) : St × Except String Nat :=
  match lookupPlan st pid with
  | none => (st, Except.error "Invalid pk")
  | some p =>
    if p.is_active = false then
      (st, Except.error "Cannot subscribe to inactive plan")
    else
      let st1 := deactivateExisting st now uid
      let newSub := newSubRow st1.nextSubId now uid pid
      let st2 := insertSubscription st1 newSub
      let st3 := { st2 with
                   cache := cacheDelete st2.cache (CacheKey.userSubscriptions uid) }
      (st3, Except.ok newSub.id)

/-- Validation and update of `change_plan` once `get_object()` returned
`sub` (`SubscriptionUpdateSerializer.validate_plan` + `update`, inside
`@transaction.atomic`): reject an unknown or inactive target plan or the
current plan with no state change; otherwise mutate the plan reference,
refresh `updated_at`, save, and explicitly delete the owner's list cache
key (`instance.user.id`). -/
def changePlanOn (st : St) (now : Nat) (sub : Subscription) (pid : Nat) :
    St × Except String Nat :=
  match lookupPlan st pid with
  | none => (st, Except.error "Invalid pk")
  | some p =>
    if p.is_active = false then
      (st, Except.error "Cannot switch to inactive plan")
    else if sub.planId == p.id then
      (st, Except.error "Already subscribed to this plan")
    else
      let sub' := { sub with planId := p.id, updated_at := now }
      let st1 := saveSubscription st sub'
      let st2 := { st1 with
                   cache := cacheDelete st1.cache
                     (CacheKey.userSubscriptions sub.user) }
      (st2, Except.ok sub.id)

/-- `SubscriptionViewSet.change_plan`: 404 outside the user's queryset,
then `changePlanOn`. -/
def changePlan (st : St) (now uid sid pid : Nat) : St × Except String Nat :=
  match getObject st uid sid with
  | none => (st, Except.error "Not found")
  | some sub => changePlanOn st now sub pid

/-- The body of `SubscriptionViewSet.deactivate` once `get_object()`
returned `sub`: HTTP 400 `"Subscription is already inactive"` when the
row is inactive (state untouched); otherwise `Subscription.deactivate()`
and a 200. -/
def viewDeactivateOn (st : St) (now : Nat) (sub : Subscription) :
    St × Except String Nat :=
  if sub.is_active = false then
    (st, Except.error "Subscription is already inactive")
  else
    (deactivateSubscription st sub now "", Except.ok sub.id)

/-- `SubscriptionViewSet.deactivate`: 404 outside the user's queryset,
then `viewDeactivateOn`. -/
def viewDeactivate (st : St) (now uid sid : Nat) : St × Except String Nat :=
  match getObject st uid sid with
  | none => (st, Except.error "Not found")
  | some sub => viewDeactivateOn st now sub

/-- Python truthiness of a cached list response (`if cached_data:`): the
cached response data is a non-empty paginated dict whenever present, so
the check is presence of a cached list. -/
def asListVal : Option CacheVal → Option (List SubscriptionView)
  | some (CacheVal.listVal v) => some v
  | _ => none

/-- Presence of a cached single-subscription response. -/
def asOneVal : Option CacheVal → Option SubscriptionView
  | some (CacheVal.oneVal v) => some v
  | _ => none

/-- The inner `SubscriptionViewSet.list` body plus the `cache_page` store
step, run on a page-cache miss: check `user_subscriptions_<uid>`; on a
miss compute the projection and store it; either way the `cache_page`
layer stores the response it saw. -/
def listInner (st : St) (now uid : Nat) : St × List SubscriptionView :=
  match asListVal (cacheGet st.cache (CacheKey.userSubscriptions uid)) with
  | some v =>
      ({ st with
         cache := cacheSet st.cache (CacheKey.pageListSubscriptions uid)
           (CacheVal.listVal v) }, v)
  | none =>
      let v := listFor st now uid
      let c1 := cacheSet st.cache (CacheKey.userSubscriptions uid)
        (CacheVal.listVal v)
      let c2 := cacheSet c1 (CacheKey.pageListSubscriptions uid)
        (CacheVal.listVal v)
      ({ st with cache := c2 }, v)

/-- `SubscriptionViewSet.list`: the outermost `cache_page` layer serves
the whole cached response on a hit (the inner view never runs); otherwise
the inner view runs and the response is stored in the page cache. -/
def listSubscriptions (st : St) (now uid : Nat) : St × List SubscriptionView :=
  match asListVal (cacheGet st.cache (CacheKey.pageListSubscriptions uid)) with
  | some v => (st, v)
  | none => listInner st now uid

/-- The store branch of `SubscriptionViewSet.active_subscription`:
`get_queryset().get(is_active=True)` — exactly one active row is
projected and cached, zero rows give the 404 empty-result signal,
several raise `MultipleObjectsReturned` (uncaught). -/
def activeInner (st : St) (now uid : Nat) : St × Except String SubscriptionView :=
  match (userSubs st uid).filter (fun s => s.is_active) with
  | [s] =>
      let v := subscriptionView st now s
      ({ st with
         cache := cacheSet st.cache (CacheKey.activeSubscription uid)
           (CacheVal.oneVal v) }, Except.ok v)
  | [] => (st, Except.error "No active subscription found")
  | _ => (st, Except.error "MultipleObjectsReturned")

/-- `SubscriptionViewSet.active_subscription`: serve
`active_subscription_<uid>` on a hit, otherwise read the store. -/
def activeSubscriptionRead (st : St) (now uid : Nat) :
    St × Except String SubscriptionView :=
  match asOneVal (cacheGet st.cache (CacheKey.activeSubscription uid)) with
  | some v => (st, Except.ok v)
  | none => activeInner st now uid

/-- States reachable from a subscription-free store (plans and features
administered out of band, empty cache) by any sequence of the
subscription operations and reads, at strictly increasing times.  The
index is the time of the latest operation. -/
inductive Reach : Nat → St → Prop where
  | init (features : List Feature) (plans : List Plan) (nid : Nat) :
      Reach 0 { features := features, plans := plans, subs := [],
                nextSubId := nid, cache := [] }
  | create {t : Nat} {st : St} (t' uid pid : Nat) :
      Reach t st → t < t' → Reach t' (createSubscription st t' uid pid).1
  | change {t : Nat} {st : St} (t' uid sid pid : Nat) :
      Reach t st → t < t' → Reach t' (changePlan st t' uid sid pid).1
  | deact {t : Nat} {st : St} (t' uid sid : Nat) :
      Reach t st → t < t' → Reach t' (viewDeactivate st t' uid sid).1
  | readList {t : Nat} {st : St} (t' uid : Nat) :
      Reach t st → t < t' → Reach t' (listSubscriptions st t' uid).1
  | readActive {t : Nat} {st : St} (t' uid : Nat) :
      Reach t st → t < t' → Reach t' (activeSubscriptionRead st t' uid).1

/-- Per-row well-formedness at time `t`: `end_date` is null iff the row
is active, `start_date` precedes `end_date`, and all timestamps are in
the past. -/
def SubWF (t : Nat) (s : Subscription) : Prop :=
  (s.end_date = none ↔ s.is_active = true) ∧
  (∀ e, s.end_date = some e → s.start_date < e) ∧
  s.start_date ≤ t ∧
  (∀ e, s.end_date = some e → e ≤ t)

/-- Ownership contract between a cache key and a cached value: a value
under a user-scoped key only holds views of that user's subscriptions. -/
def ValOwn : CacheKey → CacheVal → Prop
  | CacheKey.userSubscriptions uid, CacheVal.listVal vs => ∀ v ∈ vs, v.user_email = uid
  | CacheKey.pageListSubscriptions uid, CacheVal.listVal vs => ∀ v ∈ vs, v.user_email = uid
  | CacheKey.activeSubscription uid, CacheVal.oneVal v => v.user_email = uid
  | _, _ => True

/-- Every cached entry satisfies its key's ownership contract. -/
def CacheOwn (c : List (CacheKey × CacheVal)) : Prop :=
  ∀ k v, cacheGet c k = some v → ValOwn k v

/-- The inductive invariant of reachable states. -/
def StInv (t : Nat) (st : St) : Prop :=
  (∀ uid, countActive st uid ≤ 1) ∧
  (∀ s ∈ st.subs, SubWF t s) ∧
  (∀ s ∈ st.subs, s.id < st.nextSubId) ∧
  (st.subs.map (·.id)).Nodup ∧
  CacheOwn st.cache

/-! Concrete example data, used to evaluate the operations on explicit
inputs (a user 7, an active Basic plan with an active and an inactive
feature, an active Pro plan, and an inactive plan). -/

def exFeatureA : Feature :=
  { id := 1, name := "Analytics", description := "", is_active := true }

def exFeatureOff : Feature :=
  { id := 2, name := "Beta", description := "", is_active := false }

def exPlanBasic : Plan :=
  { id := 1, name := "Basic", description := "", price := some 999,
    featureIds := [1], is_active := true }

def exPlanPro : Plan :=
  { id := 2, name := "Pro", description := "", price := some 4999,
    featureIds := [1], is_active := true }

def exPlanOff : Plan :=
  { id := 3, name := "Legacy", description := "", price := none,
    featureIds := [], is_active := false }

/-- An active plan whose only feature is the inactive "Beta". -/
def exPlanBeta : Plan :=
  { id := 4, name := "BetaPack", description := "", price := none,
    featureIds := [2], is_active := true }

/-- Initial store: plans and features seeded, no subscriptions, cold cache. -/
def exSt0 : St :=
  { features := [exFeatureA, exFeatureOff],
    plans := [exPlanBasic, exPlanPro, exPlanOff, exPlanBeta],
    subs := [], nextSubId := 1, cache := [] }

/-- User 7 subscribes to the Basic plan at time 1. -/
def exSt1 : St := (createSubscription exSt0 1 7 1).1

/-- User 7 deactivates that subscription at time 2. -/
def exSt1d : St := (viewDeactivate exSt1 2 7 1).1

/-- User 7 lists subscriptions at time 1 on the fresh store (populates the
page cache and the low-level list cache). -/
def exStL1 : St := (listSubscriptions exSt0 1 7).1

/-- User 7 then subscribes to the Basic plan at time 2. -/
def exStL2 : St := (createSubscription exStL1 2 7 1).1

/-! Cache lemmas. -/

theorem cacheGet_delete_self (c : List (CacheKey × CacheVal)) (k : CacheKey) :
    cacheGet (cacheDelete c k) k = none := by
  have h : (cacheDelete c k).find? (fun p => p.1 == k) = none := by
    rw [List.find?_eq_none]
    intro p hp
    have := (List.mem_filter.mp hp).2
    simpa using this
  simp [cacheGet, h]

theorem cacheDelete_cons_keep {p : CacheKey × CacheVal}
    {c : List (CacheKey × CacheVal)} {k : CacheKey} (h : p.1 ≠ k) :
    cacheDelete (p :: c) k = p :: cacheDelete c k := by
  simp [cacheDelete, List.filter_cons, h]

theorem cacheDelete_cons_drop {p : CacheKey × CacheVal}
    {c : List (CacheKey × CacheVal)} {k : CacheKey} (h : p.1 = k) :
    cacheDelete (p :: c) k = cacheDelete c k := by
  simp [cacheDelete, List.filter_cons, h]

theorem cacheGet_cons_hit {p : CacheKey × CacheVal}
    {c : List (CacheKey × CacheVal)} {k' : CacheKey} (h : p.1 = k') :
    cacheGet (p :: c) k' = some p.2 := by
  have hb : (p.1 == k') = true := by simpa using h
  unfold cacheGet
  rw [@List.find?_cons_of_pos _ (fun q => q.1 == k') p c hb]
  rfl

theorem cacheGet_cons_miss {p : CacheKey × CacheVal}
    {c : List (CacheKey × CacheVal)} {k' : CacheKey} (h : p.1 ≠ k') :
    cacheGet (p :: c) k' = cacheGet c k' := by
  have hb : ¬ ((p.1 == k') = true) := by simpa using h
  unfold cacheGet
  rw [@List.find?_cons_of_neg _ (fun q => q.1 == k') p c hb]

theorem cacheGet_delete_ne (c : List (CacheKey × CacheVal)) (k k' : CacheKey)
    (h : k' ≠ k) : cacheGet (cacheDelete c k) k' = cacheGet c k' := by
  induction c with
  | nil => rfl
  | cons p c ih =>
    by_cases hk : p.1 = k
    · rw [cacheDelete_cons_drop hk, ih, cacheGet_cons_miss]
      rw [hk]; exact fun hc => h hc.symm
    · rw [cacheDelete_cons_keep hk]
      by_cases hk' : p.1 = k'
      · rw [cacheGet_cons_hit hk', cacheGet_cons_hit hk']
      · rw [cacheGet_cons_miss hk', cacheGet_cons_miss hk', ih]

theorem cacheGet_set_self (c : List (CacheKey × CacheVal)) (k : CacheKey)
    (v : CacheVal) : cacheGet (cacheSet c k v) k = some v := by
  rw [cacheSet, cacheGet_cons_hit rfl]

theorem cacheGet_set_ne (c : List (CacheKey × CacheVal)) (k k' : CacheKey)
    (v : CacheVal) (h : k' ≠ k) :
    cacheGet (cacheSet c k v) k' = cacheGet c k' := by
  rw [cacheSet, cacheGet_cons_miss (fun hc => h hc.symm), cacheGet_delete_ne c k k' h]

theorem cacheOwn_delete {c : List (CacheKey × CacheVal)} (k : CacheKey)
    (h : CacheOwn c) : CacheOwn (cacheDelete c k) := by
  intro k' v hv
  by_cases hk : k' = k
  · rw [hk, cacheGet_delete_self] at hv; cases hv
  · rw [cacheGet_delete_ne c k k' hk] at hv; exact h k' v hv

theorem cacheOwn_set {c : List (CacheKey × CacheVal)} {k : CacheKey}
    {v : CacheVal} (h : CacheOwn c) (hv : ValOwn k v) :
    CacheOwn (cacheSet c k v) := by
  intro k' v' hv'
  by_cases hk : k' = k
  · subst hk; rw [cacheGet_set_self] at hv'
    cases hv'; exact hv
  · rw [cacheGet_set_ne c k k' v hk] at hv'; exact h k' v' hv'

theorem cacheOwn_clearUser {c : List (CacheKey × CacheVal)} (uid : Nat)
    (h : CacheOwn c) : CacheOwn (clearUserCache c uid) :=
  cacheOwn_delete _ (cacheOwn_delete _ h)

/-! Store-list lemmas. -/

theorem countActive_eq_countP (st : St) (uid : Nat) :
    countActive st uid = st.subs.countP (fun s => s.user == uid && s.is_active) := by
  rw [countActive, List.countP_eq_length_filter]

theorem eq_of_id_eq {subs : List Subscription} (hnd : (subs.map (·.id)).Nodup)
    {x y : Subscription} (hx : x ∈ subs) (hy : y ∈ subs) (h : x.id = y.id) :
    x = y :=
  List.inj_on_of_nodup_map hnd hx hy h

theorem replace_map_id (subs : List Subscription) (s' : Subscription) :
    ((subs.map (fun x => if x.id == s'.id then s' else x)).map (·.id)) =
      subs.map (·.id) := by
  rw [List.map_map]
  apply List.map_congr_left
  intro a _
  by_cases h : a.id = s'.id
  · simp [Function.comp, h]
  · simp [Function.comp, h]

theorem mem_replace {subs : List Subscription} {s' x : Subscription}
    (h : x ∈ subs.map (fun y => if y.id == s'.id then s' else y)) :
    x ∈ subs ∨ x = s' := by
  obtain ⟨y, hy, hfy⟩ := List.mem_map.mp h
  by_cases hid : y.id = s'.id
  · right; rw [← hfy]; simp [hid]
  · left; rw [← hfy]; simpa [hid] using hy

theorem countP_replace_eq {subs : List Subscription} {x x' : Subscription}
    (hnd : (subs.map (·.id)).Nodup) (hx : x ∈ subs) (hid : x'.id = x.id)
    (p : Subscription → Bool) (hp : p x' = p x) :
    (subs.map (fun y => if y.id == x'.id then x' else y)).countP p =
      subs.countP p := by
  rw [List.countP_map]
  apply List.countP_congr
  intro y hy
  show p (if (y.id == x'.id) = true then x' else y) = true ↔ p y = true
  by_cases hyid : y.id = x'.id
  · have hyx : y = x := eq_of_id_eq hnd hy hx (hyid.trans hid)
    rw [if_pos (by simpa using hyid), hp, hyx]
  · rw [if_neg (by simpa using hyid)]

theorem filter_replace_nil {subs : List Subscription} {x x' : Subscription}
    (hid : x'.id = x.id) (p : Subscription → Bool) (hpx' : p x' = false)
    (hone : subs.filter p = [x]) :
    (subs.map (fun y => if y.id == x'.id then x' else y)).filter p = [] := by
  rw [List.filter_eq_nil_iff]
  intro z hz
  obtain ⟨y, hy, hfy⟩ := List.mem_map.mp hz
  rw [← hfy]
  show ¬ p (if (y.id == x'.id) = true then x' else y) = true
  by_cases hyid : y.id = x'.id
  · rw [if_pos (by simpa using hyid), hpx']
    simp
  · rw [if_neg (by simpa using hyid)]
    intro hpy
    have hmem : y ∈ subs.filter p := List.mem_filter.mpr ⟨hy, hpy⟩
    rw [hone] at hmem
    have hyx : y = x := by simpa using hmem
    exact hyid (by rw [hyx, hid])

theorem filter_singleton_of_mem {subs : List Subscription} {x : Subscription}
    (p : Subscription → Bool) (hx : x ∈ subs) (hpx : p x = true)
    (hle : (subs.filter p).length ≤ 1) : subs.filter p = [x] := by
  have hmem : x ∈ subs.filter p := List.mem_filter.mpr ⟨hx, hpx⟩
  have hlen : (subs.filter p).length = 1 := by
    have : 0 < (subs.filter p).length := List.length_pos_of_mem hmem
    omega
  obtain ⟨a, ha⟩ := List.length_eq_one.mp hlen
  rw [ha] at hmem ⊢
  have : x = a := by simpa using hmem
  rw [this]

theorem firstActiveFor_none (st : St) (uid : Nat)
    (h : firstActiveFor st uid = none) :
    st.subs.filter (fun s => s.user == uid && s.is_active) = [] := by
  unfold firstActiveFor at h
  rw [List.head?_eq_none_iff, List.reverse_eq_nil_iff] at h
  exact h

theorem firstActiveFor_some {st : St} {uid : Nat} {x : Subscription}
    (h : firstActiveFor st uid = some x) :
    x ∈ st.subs ∧ x.user = uid ∧ x.is_active = true := by
  unfold firstActiveFor at h
  have hx : x ∈ (st.subs.filter (fun s => s.user == uid && s.is_active)).reverse :=
    List.mem_of_mem_head? (by rw [h]; exact Option.mem_def.mpr rfl)
  rw [List.mem_reverse, List.mem_filter] at hx
  refine ⟨hx.1, ?_, ?_⟩
  · have := hx.2; simp at this; exact this.1
  · have := hx.2; simp at this; exact this.2

theorem SubWF_mono {t t' : Nat} (h : t ≤ t') {s : Subscription}
    (hs : SubWF t s) : SubWF t' s := by
  obtain ⟨h1, h2, h3, h4⟩ := hs
  exact ⟨h1, h2, le_trans h3 h, fun e he => le_trans (h4 e he) h⟩

theorem StInv_mono {t t' : Nat} {st : St} (h : t ≤ t') (hi : StInv t st) :
    StInv t' st := by
  obtain ⟨h1, h2, h3, h4, h5⟩ := hi
  exact ⟨h1, fun s hs => SubWF_mono h (h2 s hs), h3, h4, h5⟩

/-! Unfolding lemmas for the operations. -/

theorem deactivateFields_id (s : Subscription) (n : Nat) (r : String) :
    (Subscription.deactivateFields s n r).id = s.id := rfl

theorem deactivateFields_user (s : Subscription) (n : Nat) (r : String) :
    (Subscription.deactivateFields s n r).user = s.user := rfl

theorem deactivateSubscription_active {s : Subscription} (st : St) (n : Nat)
    (r : String) (h : s.is_active = true) :
    deactivateSubscription st s n r =
      saveSubscription st (s.deactivateFields n r) := by
  rw [deactivateSubscription, if_pos h]

theorem deactivateSubscription_inactive {s : Subscription} (st : St) (n : Nat)
    (r : String) (h : s.is_active = false) :
    deactivateSubscription st s n r = st := by
  rw [deactivateSubscription, if_neg (by simp [h])]

theorem deactivateExisting_none {st : St} {now uid : Nat}
    (hex : firstActiveFor st uid = none) :
    deactivateExisting st now uid = st := by
  unfold deactivateExisting
  rw [hex]

theorem deactivateExisting_some {st : St} {now uid : Nat} {ex : Subscription}
    (hex : firstActiveFor st uid = some ex) :
    deactivateExisting st now uid =
      saveSubscription st (ex.deactivateFields now "") := by
  unfold deactivateExisting
  rw [hex]
  exact deactivateSubscription_active st now "" (firstActiveFor_some hex).2.2

theorem createSubscription_ok_shape {st : St} {now uid pid : Nat} {p : Plan}
    (hp : lookupPlan st pid = some p) (hpa : p.is_active = true) :
    createSubscription st now uid pid =
      ({ insertSubscription (deactivateExisting st now uid)
           (newSubRow (deactivateExisting st now uid).nextSubId now uid pid) with
         cache := cacheDelete
           (insertSubscription (deactivateExisting st now uid)
             (newSubRow (deactivateExisting st now uid).nextSubId now uid pid)).cache
           (CacheKey.userSubscriptions uid) },
       Except.ok (deactivateExisting st now uid).nextSubId) := by
  unfold createSubscription
  rw [hp]
  dsimp only
  rw [if_neg (by simp [hpa])]
  rfl

theorem createSubscription_planNone {st : St} {now uid pid : Nat}
    (hp : lookupPlan st pid = none) :
    createSubscription st now uid pid = (st, Except.error "Invalid pk") := by
  unfold createSubscription
  rw [hp]

theorem createSubscription_planInactive {st : St} {now uid pid : Nat} {p : Plan}
    (hp : lookupPlan st pid = some p) (hpa : p.is_active = false) :
    createSubscription st now uid pid =
      (st, Except.error "Cannot subscribe to inactive plan") := by
  unfold createSubscription
  rw [hp]
  dsimp only
  rw [if_pos hpa]

theorem createSubscription_err_state {st : St} {now uid pid : Nat} {e : String}
    (h : (createSubscription st now uid pid).2 = Except.error e) :
    (createSubscription st now uid pid).1 = st := by
  cases hp : lookupPlan st pid with
  | none => rw [createSubscription_planNone hp]
  | some p =>
    by_cases hpa : p.is_active = false
    · rw [createSubscription_planInactive hp hpa]
    · have hpa' : p.is_active = true := by
        revert hpa; cases p.is_active <;> simp
      rw [createSubscription_ok_shape hp hpa'] at h
      simp at h

theorem changePlan_objNone {st : St} {now uid sid pid : Nat}
    (h : getObject st uid sid = none) :
    changePlan st now uid sid pid = (st, Except.error "Not found") := by
  unfold changePlan
  rw [h]

theorem changePlan_objSome {st : St} {now uid sid pid : Nat} {sub : Subscription}
    (h : getObject st uid sid = some sub) :
    changePlan st now uid sid pid = changePlanOn st now sub pid := by
  unfold changePlan
  rw [h]

theorem changePlanOn_planNone {st : St} {now pid : Nat} {sub : Subscription}
    (hp : lookupPlan st pid = none) :
    changePlanOn st now sub pid = (st, Except.error "Invalid pk") := by
  unfold changePlanOn
  rw [hp]

theorem changePlanOn_planInactive {st : St} {now pid : Nat} {sub : Subscription}
    {p : Plan} (hp : lookupPlan st pid = some p) (hpa : p.is_active = false) :
    changePlanOn st now sub pid =
      (st, Except.error "Cannot switch to inactive plan") := by
  unfold changePlanOn
  rw [hp]
  dsimp only
  rw [if_pos hpa]

theorem changePlanOn_samePlan {st : St} {now pid : Nat} {sub : Subscription}
    {p : Plan} (hp : lookupPlan st pid = some p) (hpa : p.is_active = true)
    (hsame : sub.planId = p.id) :
    changePlanOn st now sub pid =
      (st, Except.error "Already subscribed to this plan") := by
  unfold changePlanOn
  rw [hp]
  dsimp only
  rw [if_neg (by simp [hpa]), if_pos (by simp [hsame])]

theorem changePlanOn_ok_shape {st : St} {now pid : Nat} {sub : Subscription}
    {p : Plan} (hp : lookupPlan st pid = some p) (hpa : p.is_active = true)
    (hne : sub.planId ≠ p.id) :
    changePlanOn st now sub pid =
      ({ saveSubscription st { sub with planId := p.id, updated_at := now } with
         cache := cacheDelete
           (saveSubscription st
             { sub with planId := p.id, updated_at := now }).cache
           (CacheKey.userSubscriptions sub.user) },
       Except.ok sub.id) := by
  unfold changePlanOn
  rw [hp]
  dsimp only
  rw [if_neg (by simp [hpa]), if_neg (by simp [hne])]

theorem viewDeactivate_objNone {st : St} {now uid sid : Nat}
    (h : getObject st uid sid = none) :
    viewDeactivate st now uid sid = (st, Except.error "Not found") := by
  unfold viewDeactivate
  rw [h]

theorem viewDeactivate_objSome {st : St} {now uid sid : Nat} {sub : Subscription}
    (h : getObject st uid sid = some sub) :
    viewDeactivate st now uid sid = viewDeactivateOn st now sub := by
  unfold viewDeactivate
  rw [h]

theorem viewDeactivateOn_inactive {st : St} {now : Nat} {sub : Subscription}
    (h : sub.is_active = false) :
    viewDeactivateOn st now sub =
      (st, Except.error "Subscription is already inactive") := by
  unfold viewDeactivateOn
  rw [if_pos h]

theorem viewDeactivateOn_active {st : St} {now : Nat} {sub : Subscription}
    (h : sub.is_active = true) :
    viewDeactivateOn st now sub =
      (saveSubscription st (sub.deactivateFields now ""), Except.ok sub.id) := by
  unfold viewDeactivateOn
  rw [if_neg (by simp [h]), deactivateSubscription_active st now "" h]

theorem asListVal_some {o : Option CacheVal} {v : List SubscriptionView}
    (h : asListVal o = some v) : o = some (CacheVal.listVal v) := by
  match o with
  | some (CacheVal.listVal w) =>
    have : w = v := by simpa [asListVal] using h
    rw [this]
  | some (CacheVal.oneVal w) => simp [asListVal] at h
  | none => simp [asListVal] at h

theorem asOneVal_some {o : Option CacheVal} {v : SubscriptionView}
    (h : asOneVal o = some v) : o = some (CacheVal.oneVal v) := by
  match o with
  | some (CacheVal.oneVal w) =>
    have : w = v := by simpa [asOneVal] using h
    rw [this]
  | some (CacheVal.listVal w) => simp [asOneVal] at h
  | none => simp [asOneVal] at h

theorem listSubscriptions_pageHit {st : St} {now uid : Nat}
    {v : List SubscriptionView}
    (h : asListVal (cacheGet st.cache (CacheKey.pageListSubscriptions uid)) =
      some v) :
    listSubscriptions st now uid = (st, v) := by
  unfold listSubscriptions
  rw [h]

theorem listSubscriptions_pageMiss {st : St} {now uid : Nat}
    (h : asListVal (cacheGet st.cache (CacheKey.pageListSubscriptions uid)) =
      none) :
    listSubscriptions st now uid = listInner st now uid := by
  unfold listSubscriptions
  rw [h]

theorem listInner_lowHit {st : St} {now uid : Nat} {v : List SubscriptionView}
    (h : asListVal (cacheGet st.cache (CacheKey.userSubscriptions uid)) =
      some v) :
    listInner st now uid =
      ({ st with
         cache := cacheSet st.cache (CacheKey.pageListSubscriptions uid)
           (CacheVal.listVal v) }, v) := by
  unfold listInner
  rw [h]

theorem listInner_lowMiss {st : St} {now uid : Nat}
    (h : asListVal (cacheGet st.cache (CacheKey.userSubscriptions uid)) = none) :
    listInner st now uid =
      ({ st with
         cache := cacheSet
           (cacheSet st.cache (CacheKey.userSubscriptions uid)
             (CacheVal.listVal (listFor st now uid)))
           (CacheKey.pageListSubscriptions uid)
           (CacheVal.listVal (listFor st now uid)) },
       listFor st now uid) := by
  unfold listInner
  rw [h]

theorem activeRead_hit {st : St} {now uid : Nat} {v : SubscriptionView}
    (h : asOneVal (cacheGet st.cache (CacheKey.activeSubscription uid)) =
      some v) :
    activeSubscriptionRead st now uid = (st, Except.ok v) := by
  unfold activeSubscriptionRead
  rw [h]

theorem activeRead_miss {st : St} {now uid : Nat}
    (h : asOneVal (cacheGet st.cache (CacheKey.activeSubscription uid)) = none) :
    activeSubscriptionRead st now uid = activeInner st now uid := by
  unfold activeSubscriptionRead
  rw [h]

theorem activeInner_nil {st : St} {now uid : Nat}
    (h : (userSubs st uid).filter (fun s => s.is_active) = []) :
    activeInner st now uid =
      (st, Except.error "No active subscription found") := by
  unfold activeInner
  rw [h]

theorem activeInner_one {st : St} {now uid : Nat} {s : Subscription}
    (h : (userSubs st uid).filter (fun s => s.is_active) = [s]) :
    activeInner st now uid =
      ({ st with
         cache := cacheSet st.cache (CacheKey.activeSubscription uid)
           (CacheVal.oneVal (subscriptionView st now s)) },
       Except.ok (subscriptionView st now s)) := by
  unfold activeInner
  rw [h]

/-! Component lemmas for persistence helpers. -/

theorem insertSubscription_subs (st : St) (s : Subscription) :
    (insertSubscription st s).subs = st.subs ++ [s] := rfl

theorem insertSubscription_next (st : St) (s : Subscription) :
    (insertSubscription st s).nextSubId = st.nextSubId + 1 := rfl

theorem saveSubscription_subs (st : St) (s : Subscription) :
    (saveSubscription st s).subs =
      st.subs.map (fun x => if x.id == s.id then s else x) := rfl

theorem saveSubscription_next (st : St) (s : Subscription) :
    (saveSubscription st s).nextSubId = st.nextSubId := rfl

theorem deactivateFields_is_active (s : Subscription) (n : Nat) (r : String) :
    (Subscription.deactivateFields s n r).is_active = false := rfl

theorem deactivateFields_start (s : Subscription) (n : Nat) (r : String) :
    (Subscription.deactivateFields s n r).start_date = s.start_date := rfl

theorem deactivateFields_end (s : Subscription) (n : Nat) (r : String) :
    (Subscription.deactivateFields s n r).end_date = some n := rfl

/-! Invariant preservation, one lemma per operation. -/

theorem create_preserves {t : Nat} {st : St} (now uid pid : Nat)
    (h : StInv t st) (ht : t < now) :
    StInv now (createSubscription st now uid pid).1 := by
  obtain ⟨hcount, hwf, hbound, hnd, hcache⟩ := h
  cases hp : lookupPlan st pid with
  | none =>
    rw [createSubscription_planNone hp]
    exact StInv_mono (le_of_lt ht) ⟨hcount, hwf, hbound, hnd, hcache⟩
  | some p =>
    by_cases hpa : p.is_active = false
    · rw [createSubscription_planInactive hp hpa]
      exact StInv_mono (le_of_lt ht) ⟨hcount, hwf, hbound, hnd, hcache⟩
    · have hpa' : p.is_active = true := by revert hpa; cases p.is_active <;> simp
      rw [createSubscription_ok_shape hp hpa']
      cases hex : firstActiveFor st uid with
      | none =>
        rw [deactivateExisting_none hex]
        have hfil : st.subs.filter (fun s => s.user == uid && s.is_active) = [] :=
          firstActiveFor_none st uid hex
        refine ⟨?_, ?_, ?_, ?_, ?_⟩
        · intro u
          show ((st.subs ++ [newSubRow st.nextSubId now uid pid]).filter
            (fun s => s.user == u && s.is_active)).length ≤ 1
          rw [List.filter_append, List.length_append]
          by_cases hu : uid = u
          · subst hu
            have h0 : countActive st uid = 0 := by
              show (st.subs.filter (fun s => s.user == uid && s.is_active)).length = 0
              rw [hfil]; rfl
            have h0' : (st.subs.filter
                (fun s => s.user == uid && s.is_active)).length = 0 := h0
            rw [h0']
            simp [newSubRow]
          · have hr : ([newSubRow st.nextSubId now uid pid].filter
                (fun s => s.user == u && s.is_active)) = [] := by
              simp [newSubRow, List.filter_cons]
              intro hc
              exact absurd hc hu
            rw [hr]
            simpa using hcount u
        · intro s hs
          rcases List.mem_append.mp hs with hold | hnew
          · exact SubWF_mono (le_of_lt ht) (hwf s hold)
          · have : s = newSubRow st.nextSubId now uid pid := by simpa using hnew
            subst this
            refine ⟨by simp [newSubRow], by simp [newSubRow], le_refl _,
              by simp [newSubRow]⟩
        · intro s hs
          show s.id < st.nextSubId + 1
          rcases List.mem_append.mp hs with hold | hnew
          · exact Nat.lt_succ_of_lt (hbound s hold)
          · have : s = newSubRow st.nextSubId now uid pid := by simpa using hnew
            subst this
            exact Nat.lt_succ_self _
        · show ((st.subs ++ [newSubRow st.nextSubId now uid pid]).map (·.id)).Nodup
          rw [List.map_append]
          rw [List.nodup_append]
          refine ⟨hnd, by simp, ?_⟩
          intro a ha
          simp only [List.map_cons, List.map_nil, List.mem_singleton]
          obtain ⟨s, hsmem, hsid⟩ := List.mem_map.mp ha
          intro hc
          have : s.id < st.nextSubId := hbound s hsmem
          rw [hsid] at this
          simp [newSubRow] at hc
          omega
        · exact cacheOwn_delete _ (cacheOwn_clearUser _ hcache)
      | some ex =>
        rw [deactivateExisting_some hex]
        obtain ⟨hexm, hexu, hexa⟩ := firstActiveFor_some hex
        have hone : st.subs.filter (fun s => s.user == uid && s.is_active) = [ex] :=
          filter_singleton_of_mem _ hexm (by simp [hexu, hexa]) (hcount uid)
        have hid : (ex.deactivateFields now "").id = ex.id := rfl
        refine ⟨?_, ?_, ?_, ?_, ?_⟩
        · intro u
          show (((st.subs.map (fun x =>
              if x.id == (ex.deactivateFields now "").id
              then ex.deactivateFields now "" else x)) ++
              [newSubRow st.nextSubId now uid pid]).filter
            (fun s => s.user == u && s.is_active)).length ≤ 1
          rw [List.filter_append, List.length_append]
          by_cases hu : uid = u
          · subst hu
            have hz := filter_replace_nil hid
              (fun s => s.user == uid && s.is_active)
              (by simp [deactivateFields_user, deactivateFields_is_active])
              hone
            rw [hz]
            simp [newSubRow]
          · have heq := countP_replace_eq hnd hexm hid
              (fun s => s.user == u && s.is_active)
              (by
                show ((ex.deactivateFields now "").user == u &&
                    (ex.deactivateFields now "").is_active) =
                  (ex.user == u && ex.is_active)
                rw [deactivateFields_user, deactivateFields_is_active]
                have : (ex.user == u) = false := by
                  simp [hexu]
                  exact hu
                rw [this]
                simp)
            have hl : ((st.subs.map (fun x =>
                if x.id == (ex.deactivateFields now "").id
                then ex.deactivateFields now "" else x)).filter
                (fun s => s.user == u && s.is_active)).length =
                (st.subs.filter (fun s => s.user == u && s.is_active)).length := by
              rw [← List.countP_eq_length_filter, ← List.countP_eq_length_filter]
              exact heq
            rw [hl]
            have hr : ([newSubRow st.nextSubId now uid pid].filter
                (fun s => s.user == u && s.is_active)) = [] := by
              simp [newSubRow, List.filter_cons]
              intro hc
              exact absurd hc hu
            rw [hr]
            simpa using hcount u
        · intro s hs
          rcases List.mem_append.mp hs with hold | hnew
          · rcases mem_replace hold with hmem | hrepl
            · exact SubWF_mono (le_of_lt ht) (hwf s hmem)
            · subst hrepl
              refine ⟨by simp [deactivateFields_end, deactivateFields_is_active],
                ?_, ?_, ?_⟩
              · intro e he
                rw [deactivateFields_end] at he
                have he' : e = now := by simpa using he.symm
                subst he'
                rw [deactivateFields_start]
                exact lt_of_le_of_lt (hwf ex hexm).2.2.1 ht
              · rw [deactivateFields_start]
                exact le_trans (hwf ex hexm).2.2.1 (le_of_lt ht)
              · intro e he
                rw [deactivateFields_end] at he
                have he' : e = now := by simpa using he.symm
                subst he'
                exact le_refl _
          · have : s = newSubRow st.nextSubId now uid pid := by simpa using hnew
            subst this
            refine ⟨by simp [newSubRow], by simp [newSubRow], le_refl _,
              by simp [newSubRow]⟩
        · intro s hs
          show s.id < st.nextSubId + 1
          rcases List.mem_append.mp hs with hold | hnew
          · rcases mem_replace hold with hmem | hrepl
            · exact Nat.lt_succ_of_lt (hbound s hmem)
            · subst hrepl
              rw [hid]
              exact Nat.lt_succ_of_lt (hbound ex hexm)
          · have : s = newSubRow st.nextSubId now uid pid := by simpa using hnew
            subst this
            exact Nat.lt_succ_self _
        · show (((st.subs.map (fun x =>
              if x.id == (ex.deactivateFields now "").id
              then ex.deactivateFields now "" else x)) ++
              [newSubRow st.nextSubId now uid pid]).map (·.id)).Nodup
          rw [List.map_append, replace_map_id, List.nodup_append]
          refine ⟨hnd, by simp, ?_⟩
          intro a ha
          simp only [List.map_cons, List.map_nil, List.mem_singleton]
          obtain ⟨s, hsmem, hsid⟩ := List.mem_map.mp ha
          intro hc
          have : s.id < st.nextSubId := hbound s hsmem
          rw [hsid] at this
          simp [newSubRow] at hc
          omega
        · exact cacheOwn_delete _ (cacheOwn_clearUser _ (cacheOwn_clearUser _ hcache))

theorem countP_replace_le (subs : List Subscription) {x' : Subscription}
    (p : Subscription → Bool) (hp : p x' = false) :
    (subs.map (fun y => if y.id == x'.id then x' else y)).countP p ≤
      subs.countP p := by
  rw [List.countP_map]
  apply List.countP_mono_left
  intro y hy hpy
  show p y = true
  by_cases hyid : y.id = x'.id
  · exfalso
    have h2 : p (if (y.id == x'.id) = true then x' else y) = true := hpy
    rw [if_pos (by simpa using hyid)] at h2
    rw [hp] at h2
    cases h2
  · have h2 : p (if (y.id == x'.id) = true then x' else y) = true := hpy
    rwa [if_neg (by simpa using hyid)] at h2

theorem changePlan_preserves {t : Nat} {st : St} (now uid sid pid : Nat)
    (h : StInv t st) (ht : t < now) :
    StInv now (changePlan st now uid sid pid).1 := by
  obtain ⟨hcount, hwf, hbound, hnd, hcache⟩ := h
  have hmono := StInv_mono (le_of_lt ht) ⟨hcount, hwf, hbound, hnd, hcache⟩
  cases hobj : getObject st uid sid with
  | none => rw [changePlan_objNone hobj]; exact hmono
  | some sub =>
    rw [changePlan_objSome hobj]
    cases hp : lookupPlan st pid with
    | none => rw [changePlanOn_planNone hp]; exact hmono
    | some p =>
      by_cases hpa : p.is_active = false
      · rw [changePlanOn_planInactive hp hpa]; exact hmono
      · have hpa' : p.is_active = true := by revert hpa; cases p.is_active <;> simp
        by_cases hsame : sub.planId = p.id
        · rw [changePlanOn_samePlan hp hpa' hsame]; exact hmono
        · rw [changePlanOn_ok_shape hp hpa' hsame]
          have hsubm : sub ∈ st.subs := List.mem_of_find?_eq_some hobj
          have hid : ({ sub with planId := p.id, updated_at := now } :
              Subscription).id = sub.id := rfl
          refine ⟨?_, ?_, ?_, ?_, ?_⟩
          · intro u
            show ((st.subs.map (fun x =>
                if x.id == ({ sub with planId := p.id, updated_at := now } :
                  Subscription).id
                then { sub with planId := p.id, updated_at := now } else x)).filter
              (fun s => s.user == u && s.is_active)).length ≤ 1
            rw [← List.countP_eq_length_filter]
            rw [countP_replace_eq hnd hsubm hid
              (fun s => s.user == u && s.is_active) rfl]
            rw [List.countP_eq_length_filter]
            exact hcount u
          · intro s hs
            rcases mem_replace hs with hmem | hrepl
            · exact SubWF_mono (le_of_lt ht) (hwf s hmem)
            · subst hrepl
              exact SubWF_mono (le_of_lt ht) (hwf sub hsubm)
          · intro s hs
            show s.id < st.nextSubId
            rcases mem_replace hs with hmem | hrepl
            · exact hbound s hmem
            · subst hrepl
              exact hbound sub hsubm
          · show ((st.subs.map (fun x =>
                if x.id == ({ sub with planId := p.id, updated_at := now } :
                  Subscription).id
                then { sub with planId := p.id, updated_at := now } else x)).map
              (·.id)).Nodup
            rw [replace_map_id]
            exact hnd
          · exact cacheOwn_delete _ (cacheOwn_clearUser _ hcache)

theorem deact_preserves {t : Nat} {st : St} (now uid sid : Nat)
    (h : StInv t st) (ht : t < now) :
    StInv now (viewDeactivate st now uid sid).1 := by
  obtain ⟨hcount, hwf, hbound, hnd, hcache⟩ := h
  have hmono := StInv_mono (le_of_lt ht) ⟨hcount, hwf, hbound, hnd, hcache⟩
  cases hobj : getObject st uid sid with
  | none => rw [viewDeactivate_objNone hobj]; exact hmono
  | some sub =>
    rw [viewDeactivate_objSome hobj]
    by_cases hia : sub.is_active = false
    · rw [viewDeactivateOn_inactive hia]; exact hmono
    · have hia' : sub.is_active = true := by revert hia; cases sub.is_active <;> simp
      rw [viewDeactivateOn_active hia']
      have hsubm : sub ∈ st.subs := List.mem_of_find?_eq_some hobj
      refine ⟨?_, ?_, ?_, ?_, ?_⟩
      · intro u
        show ((st.subs.map (fun x =>
            if x.id == (sub.deactivateFields now "").id
            then sub.deactivateFields now "" else x)).filter
          (fun s => s.user == u && s.is_active)).length ≤ 1
        rw [← List.countP_eq_length_filter]
        calc (st.subs.map (fun x =>
                if x.id == (sub.deactivateFields now "").id
                then sub.deactivateFields now "" else x)).countP
              (fun s => s.user == u && s.is_active) ≤
            st.subs.countP (fun s => s.user == u && s.is_active) :=
              countP_replace_le st.subs _
                (by simp [deactivateFields_is_active])
          _ ≤ 1 := by rw [List.countP_eq_length_filter]; exact hcount u
      · intro s hs
        rcases mem_replace hs with hmem | hrepl
        · exact SubWF_mono (le_of_lt ht) (hwf s hmem)
        · subst hrepl
          refine ⟨by simp [deactivateFields_end, deactivateFields_is_active],
            ?_, ?_, ?_⟩
          · intro e he
            rw [deactivateFields_end] at he
            have he' : e = now := by simpa using he.symm
            subst he'
            rw [deactivateFields_start]
            exact lt_of_le_of_lt (hwf sub hsubm).2.2.1 ht
          · rw [deactivateFields_start]
            exact le_trans (hwf sub hsubm).2.2.1 (le_of_lt ht)
          · intro e he
            rw [deactivateFields_end] at he
            have he' : e = now := by simpa using he.symm
            subst he'
            exact le_refl _
      · intro s hs
        show s.id < st.nextSubId
        rcases mem_replace hs with hmem | hrepl
        · exact hbound s hmem
        · subst hrepl
          exact hbound sub hsubm
      · show ((st.subs.map (fun x =>
            if x.id == (sub.deactivateFields now "").id
            then sub.deactivateFields now "" else x)).map (·.id)).Nodup
        rw [replace_map_id]
        exact hnd
      · exact cacheOwn_clearUser _ hcache

theorem listFor_user (st : St) (now uid : Nat) :
    ∀ v ∈ listFor st now uid, v.user_email = uid := by
  intro v hv
  obtain ⟨s, hs, hsv⟩ := List.mem_map.mp hv
  have hs' : s ∈ userSubs st uid := (List.mem_insertionSort _).mp hs
  have hu : (s.user == uid) = true := (List.mem_filter.mp hs').2
  rw [← hsv]
  show s.user = uid
  simpa using hu

theorem list_preserves {t : Nat} {st : St} (now uid : Nat)
    (h : StInv t st) (ht : t < now) :
    StInv now (listSubscriptions st now uid).1 := by
  obtain ⟨hcount, hwf, hbound, hnd, hcache⟩ := h
  have hmono := StInv_mono (le_of_lt ht) ⟨hcount, hwf, hbound, hnd, hcache⟩
  cases hpg : asListVal (cacheGet st.cache (CacheKey.pageListSubscriptions uid)) with
  | some v => rw [listSubscriptions_pageHit hpg]; exact hmono
  | none =>
    rw [listSubscriptions_pageMiss hpg]
    cases hlow : asListVal (cacheGet st.cache (CacheKey.userSubscriptions uid)) with
    | some v =>
      rw [listInner_lowHit hlow]
      refine ⟨hcount, fun s hs => SubWF_mono (le_of_lt ht) (hwf s hs),
        hbound, hnd, ?_⟩
      apply cacheOwn_set hcache
      have hv : ∀ w ∈ v, w.user_email = uid :=
        hcache (CacheKey.userSubscriptions uid) (CacheVal.listVal v)
          (asListVal_some hlow)
      exact hv
    | none =>
      rw [listInner_lowMiss hlow]
      refine ⟨hcount, fun s hs => SubWF_mono (le_of_lt ht) (hwf s hs),
        hbound, hnd, ?_⟩
      apply cacheOwn_set (cacheOwn_set hcache ?_) ?_
      · exact listFor_user st now uid
      · exact listFor_user st now uid

theorem active_preserves {t : Nat} {st : St} (now uid : Nat)
    (h : StInv t st) (ht : t < now) :
    StInv now (activeSubscriptionRead st now uid).1 := by
  obtain ⟨hcount, hwf, hbound, hnd, hcache⟩ := h
  have hmono := StInv_mono (le_of_lt ht) ⟨hcount, hwf, hbound, hnd, hcache⟩
  cases hhit : asOneVal (cacheGet st.cache (CacheKey.activeSubscription uid)) with
  | some v => rw [activeRead_hit hhit]; exact hmono
  | none =>
    rw [activeRead_miss hhit]
    cases hf : (userSubs st uid).filter (fun s => s.is_active) with
    | nil => rw [activeInner_nil hf]; exact hmono
    | cons s tail =>
      cases tail with
      | nil =>
        rw [activeInner_one hf]
        refine ⟨hcount, fun s hs => SubWF_mono (le_of_lt ht) (hwf s hs),
          hbound, hnd, ?_⟩
        apply cacheOwn_set hcache
        have hsmem : s ∈ (userSubs st uid).filter (fun s => s.is_active) := by
          rw [hf]; exact List.mem_singleton.mpr rfl
        have hsu : s ∈ userSubs st uid := (List.mem_filter.mp hsmem).1
        have : (s.user == uid) = true := (List.mem_filter.mp hsu).2
        show (subscriptionView st now s).user_email = uid
        show s.user = uid
        simpa using this
      | cons s2 rest =>
        have hmulti : activeInner st now uid =
            (st, Except.error "MultipleObjectsReturned") := by
          unfold activeInner
          rw [hf]
        rw [hmulti]
        exact hmono

/-- Every reachable state satisfies the inductive invariant. -/
theorem reach_inv {t : Nat} {st : St} (h : Reach t st) : StInv t st := by
  induction h with
  | init features plans nid =>
    refine ⟨?_, ?_, ?_, ?_, ?_⟩
    · intro u
      show (([] : List Subscription).filter
        (fun s => s.user == u && s.is_active)).length ≤ 1
      simp
    · intro s hs
      cases hs
    · intro s hs
      cases hs
    · show (([] : List Subscription).map (·.id)).Nodup
      simp
    · intro k v hv
      simp [cacheGet] at hv
  | create t' uid pid hr ht ih => exact create_preserves t' uid pid ih ht
  | change t' uid sid pid hr ht ih => exact changePlan_preserves t' uid sid pid ih ht
  | deact t' uid sid hr ht ih => exact deact_preserves t' uid sid ih ht
  | readList t' uid hr ht ih => exact list_preserves t' uid ih ht
  | readActive t' uid hr ht ih => exact active_preserves t' uid ih ht

/-- C1: in every state reachable by any sequence of CreateSubscription,
ChangePlan and Deactivate operations (and the cached reads), each user
has at most one Subscription row with `is_active = true`: the
single-active-subscription invariant backed by
`unique_active_subscription_per_user`. -/
theorem C1_at_most_one_active {t : Nat} {st : St} (uid : Nat)
    (h : Reach t st) : countActive st uid ≤ 1 :=
  (reach_inv h).1 uid

/-- Witness for C1 at a concrete reachable state: user 7 creates a
subscription to the Basic plan at time 1. -/
theorem C1_witness :
    Reach 1 exSt1 ∧ countActive exSt1 7 ≤ 1 := by
  have hr : Reach 1 exSt1 :=
    Reach.create 1 7 1
      (Reach.init [exFeatureA, exFeatureOff]
        [exPlanBasic, exPlanPro, exPlanOff, exPlanBeta] 1)
      (by decide)
  exact ⟨hr, C1_at_most_one_active 7 hr⟩

/-- C6: in every reachable state, a Subscription row's `end_date` is null
iff the row is active, and `start_date < end_date` whenever both dates
are set. -/
theorem C6_dates_wellformed {t : Nat} {st : St} (h : Reach t st) :
    ∀ s ∈ st.subs, (s.end_date = none ↔ s.is_active = true) ∧
      (∀ e, s.end_date = some e → s.start_date < e) :=
  fun s hs => ⟨((reach_inv h).2.1 s hs).1, ((reach_inv h).2.1 s hs).2.1⟩

/-- Witness for C6 at a concrete reachable state: user 7 creates a
subscription at time 1 and deactivates it at time 2. -/
theorem C6_witness :
    Reach 2 exSt1d ∧
      (∀ s ∈ exSt1d.subs, (s.end_date = none ↔ s.is_active = true) ∧
        (∀ e, s.end_date = some e → s.start_date < e)) := by
  have hr : Reach 2 exSt1d :=
    Reach.deact 2 7 1
      (Reach.create 1 7 1
        (Reach.init [exFeatureA, exFeatureOff]
          [exPlanBasic, exPlanPro, exPlanOff, exPlanBeta] 1)
        (by decide))
      (by decide)
  exact ⟨hr, C6_dates_wellformed hr⟩

/-- C10: the user-scoped list projection (`get_queryset()` with
`order_by("-start_date")`, serialized) is ordered by `start_date`
descending and contains exactly the views of that user's stored
subscriptions. -/
theorem C10_list_ordering (st : St) (now uid : Nat) :
    List.Sorted (fun a b : SubscriptionView => b.start_date ≤ a.start_date)
      (listFor st now uid) ∧
    (∀ v, v ∈ listFor st now uid ↔
      ∃ s, s ∈ st.subs ∧ s.user = uid ∧ v = subscriptionView st now s) := by
  constructor
  · unfold listFor
    rw [List.Sorted, List.pairwise_map]
    exact List.sorted_insertionSort subStartGe (userSubs st uid)
  · intro v
    constructor
    · intro hv
      obtain ⟨s, hsmem, hsv⟩ := List.mem_map.mp hv
      have hs' : s ∈ userSubs st uid := (List.mem_insertionSort _).mp hsmem
      obtain ⟨hmem, hu⟩ := List.mem_filter.mp hs'
      exact ⟨s, hmem, by simpa using hu, hsv.symm⟩
    · rintro ⟨s, hmem, hu, rfl⟩
      apply List.mem_map.mpr
      refine ⟨s, ?_, rfl⟩
      rw [List.mem_insertionSort]
      exact List.mem_filter.mpr ⟨hmem, by simpa using hu⟩

/-- C4: CreateSubscription and ChangePlan reject an inactive target plan,
and ChangePlan rejects a target plan identical to the subscription's
current plan; every such rejection happens before any mutation and leaves
the store state entirely unchanged. -/
theorem C4_validation_rejections (st : St) (t uid sid pid : Nat) :
    (∀ p, lookupPlan st pid = some p → p.is_active = false →
      ((∃ e, (createSubscription st t uid pid).2 = Except.error e) ∧
        (createSubscription st t uid pid).1 = st) ∧
      ((∃ e, (changePlan st t uid sid pid).2 = Except.error e) ∧
        (changePlan st t uid sid pid).1 = st)) ∧
    (∀ sub p, getObject st uid sid = some sub →
      lookupPlan st pid = some p → sub.planId = p.id →
      (∃ e, (changePlan st t uid sid pid).2 = Except.error e) ∧
      (changePlan st t uid sid pid).1 = st) := by
  constructor
  · intro p hp hpa
    refine ⟨⟨⟨"Cannot subscribe to inactive plan", ?_⟩, ?_⟩, ?_⟩
    · rw [createSubscription_planInactive hp hpa]
    · rw [createSubscription_planInactive hp hpa]
    · cases hobj : getObject st uid sid with
      | none =>
        rw [changePlan_objNone hobj]
        exact ⟨⟨"Not found", rfl⟩, rfl⟩
      | some sub =>
        rw [changePlan_objSome hobj, changePlanOn_planInactive hp hpa]
        exact ⟨⟨"Cannot switch to inactive plan", rfl⟩, rfl⟩
  · intro sub p hobj hp hsame
    by_cases hpa : p.is_active = false
    · rw [changePlan_objSome hobj, changePlanOn_planInactive hp hpa]
      exact ⟨⟨"Cannot switch to inactive plan", rfl⟩, rfl⟩
    · have hpa' : p.is_active = true := by revert hpa; cases p.is_active <;> simp
      rw [changePlan_objSome hobj, changePlanOn_samePlan hp hpa' hsame]
      exact ⟨⟨"Already subscribed to this plan", rfl⟩, rfl⟩

/-- Witness for C4 on concrete inputs: subscribing to the inactive Legacy
plan is rejected without any state change, and changing subscription 1 to
its current plan is rejected without any state change. -/
theorem C4_witness :
    (lookupPlan exSt0 3 = some exPlanOff ∧ exPlanOff.is_active = false ∧
      (∃ e, (createSubscription exSt0 5 7 3).2 = Except.error e) ∧
      (createSubscription exSt0 5 7 3).1 = exSt0) ∧
    (getObject exSt1 7 1 = some (newSubRow 1 1 7 1) ∧
      lookupPlan exSt1 1 = some exPlanBasic ∧
      (newSubRow 1 1 7 1).planId = exPlanBasic.id ∧
      (∃ e, (changePlan exSt1 5 7 1 1).2 = Except.error e) ∧
      (changePlan exSt1 5 7 1 1).1 = exSt1) := by
  have h1 := ((C4_validation_rejections exSt0 5 7 1 3).1 exPlanOff
    (by decide) (by decide)).1
  have h2 := (C4_validation_rejections exSt1 5 7 1 1).2 (newSubRow 1 1 7 1)
    exPlanBasic (by decide) (by decide) (by decide)
  exact ⟨⟨by decide, by decide, h1.1, h1.2⟩,
    ⟨by decide, by decide, by decide, h2.1, h2.2⟩⟩

theorem find?_replace {subs : List Subscription} {sub sub' : Subscription}
    {uid sid : Nat} (hid : sub'.id = sub.id) (huser : sub'.user = sub.user)
    (h : subs.find? (fun s => s.id == sid && s.user == uid) = some sub) :
    (subs.map (fun x => if x.id == sub'.id then sub' else x)).find?
      (fun s => s.id == sid && s.user == uid) = some sub' := by
  induction subs with
  | nil => simp at h
  | cons y rest ih =>
    rw [List.map_cons]
    by_cases hy : ((y.id == sid && y.user == uid) = true)
    · rw [@List.find?_cons_of_pos _ (fun s => s.id == sid && s.user == uid)
        y rest hy] at h
      have hysub : y = sub := by
        have : some y = some sub := h
        injection this
      subst hysub
      have hfy : (if (y.id == sub'.id) = true then sub' else y) = sub' :=
        if_pos (by simp [hid])
      rw [hfy]
      apply List.find?_cons_of_pos
      show (sub'.id == sid && sub'.user == uid) = true
      rw [hid, huser]
      exact hy
    · rw [@List.find?_cons_of_neg _ (fun s => s.id == sid && s.user == uid)
        y rest hy] at h
      by_cases hyid : y.id = sub'.id
      · have hpsub := List.find?_some h
        have hfy : (if (y.id == sub'.id) = true then sub' else y) = sub' :=
          if_pos (by simpa using hyid)
        rw [hfy]
        apply List.find?_cons_of_pos
        show (sub'.id == sid && sub'.user == uid) = true
        rw [hid, huser]
        exact hpsub
      · have hfy : (if (y.id == sub'.id) = true then sub' else y) = y :=
          if_neg (by simpa using hyid)
        rw [hfy]
        rw [@List.find?_cons_of_neg _ (fun s => s.id == sid && s.user == uid)
          y _ hy]
        exact ih h

theorem getObject_replace {st : St} {uid sid : Nat} {sub sub' : Subscription}
    (hid : sub'.id = sub.id) (huser : sub'.user = sub.user)
    (hobj : getObject st uid sid = some sub) :
    getObject (saveSubscription st sub') uid sid = some sub' :=
  find?_replace hid huser hobj

/-- C5 counterexample: after user 7 deactivates subscription 1 (state
`exSt1d`), calling the Deactivate endpoint on it again is rejected with
the HTTP 400 error body "Subscription is already inactive" — the second
call is an error at the API surface, contradicting the claim's "is not an
error" (the store state is indeed left unchanged). -/
theorem C5_counterexample :
    (viewDeactivate exSt1d 3 7 1).2 =
      Except.error "Subscription is already inactive" ∧
    (viewDeactivate exSt1d 3 7 1).1 = exSt1d := by
  exact ⟨rfl, rfl⟩

/-- C5 (amended): Deactivate is idempotent on the store — a second
Deactivate of the same subscription never changes the state reached by
the first call, and on an already-INACTIVE subscription the model-level
`Subscription.deactivate` is a silent no-op, while the HTTP endpoint
leaves the state unchanged but reports a 400 error rather than a
success. -/
theorem C5_deactivate_idempotent (st : St) (t t' uid sid : Nat) :
    (viewDeactivate (viewDeactivate st t uid sid).1 t' uid sid).1 =
      (viewDeactivate st t uid sid).1 ∧
    (∀ s reason, s.is_active = false →
      deactivateSubscription st s t reason = st) ∧
    (∀ s, getObject st uid sid = some s → s.is_active = false →
      (viewDeactivate st t uid sid).1 = st ∧
      ∃ e, (viewDeactivate st t uid sid).2 = Except.error e) := by
  refine ⟨?_, ?_, ?_⟩
  · cases hobj : getObject st uid sid with
    | none =>
      rw [viewDeactivate_objNone hobj]
      show (viewDeactivate st t' uid sid).1 = st
      rw [viewDeactivate_objNone hobj]
    | some s =>
      by_cases hia : s.is_active = false
      · rw [viewDeactivate_objSome hobj, viewDeactivateOn_inactive hia]
        show (viewDeactivate st t' uid sid).1 = st
        rw [viewDeactivate_objSome hobj, viewDeactivateOn_inactive hia]
      · have hia' : s.is_active = true := by
          revert hia; cases s.is_active <;> simp
        rw [viewDeactivate_objSome hobj, viewDeactivateOn_active hia']
        show (viewDeactivate (saveSubscription st (s.deactivateFields t ""))
          t' uid sid).1 = saveSubscription st (s.deactivateFields t "")
        have hobj2 : getObject (saveSubscription st (s.deactivateFields t ""))
            uid sid = some (s.deactivateFields t "") :=
          getObject_replace (deactivateFields_id s t "")
            (deactivateFields_user s t "") hobj
        rw [viewDeactivate_objSome hobj2,
          viewDeactivateOn_inactive (deactivateFields_is_active s t "")]
  · intro s reason hia
    exact deactivateSubscription_inactive st t reason hia
  · intro s hobj hia
    rw [viewDeactivate_objSome hobj, viewDeactivateOn_inactive hia]
    exact ⟨rfl, ⟨"Subscription is already inactive", rfl⟩⟩

/-- Witness for C5 (amended) on concrete inputs: the double deactivation
of subscription 1 by user 7. -/
theorem C5_witness :
    getObject exSt1d 7 1 = some ((newSubRow 1 1 7 1).deactivateFields 2 "") ∧
    ((newSubRow 1 1 7 1).deactivateFields 2 "").is_active = false ∧
    (viewDeactivate exSt1d 3 7 1).1 = exSt1d ∧
    (∃ e, (viewDeactivate exSt1d 3 7 1).2 = Except.error e) := by
  have h := (C5_deactivate_idempotent exSt1d 3 4 7 1).2.2
    ((newSubRow 1 1 7 1).deactivateFields 2 "") (by decide) (by decide)
  exact ⟨by decide, by decide, h.1, h.2⟩

/-- C8: a successful ChangePlan keeps the same subscription identity and
record count (same primary keys, same `nextSubId`), leaves every other
row in place, and the updated row differs from the old one only in its
plan reference (now the target plan) and `updated_at`: `start_date`,
`is_active`, `end_date`, owner, notes and `created_at` are unchanged. -/
theorem C8_change_plan_frame {st : St} {t uid sid pid nid : Nat}
    (h : (changePlan st t uid sid pid).2 = Except.ok nid) :
    (changePlan st t uid sid pid).1.nextSubId = st.nextSubId ∧
    (changePlan st t uid sid pid).1.subs.length = st.subs.length ∧
    ((changePlan st t uid sid pid).1.subs.map (·.id)) = st.subs.map (·.id) ∧
    ∃ sub p, getObject st uid sid = some sub ∧ lookupPlan st pid = some p ∧
      nid = sub.id ∧
      (∀ x, x ∈ st.subs → x.id ≠ sub.id →
        x ∈ (changePlan st t uid sid pid).1.subs) ∧
      (∃ x', x' ∈ (changePlan st t uid sid pid).1.subs ∧ x'.id = sub.id ∧
        x'.planId = p.id ∧ x'.updated_at = t ∧
        x'.start_date = sub.start_date ∧ x'.is_active = sub.is_active ∧
        x'.end_date = sub.end_date ∧ x'.user = sub.user ∧
        x'.notes = sub.notes ∧ x'.created_at = sub.created_at) := by
  cases hobj : getObject st uid sid with
  | none =>
    rw [changePlan_objNone hobj] at h
    cases h
  | some sub =>
    cases hp : lookupPlan st pid with
    | none =>
      rw [changePlan_objSome hobj, changePlanOn_planNone hp] at h
      cases h
    | some p =>
      by_cases hpa : p.is_active = false
      · rw [changePlan_objSome hobj, changePlanOn_planInactive hp hpa] at h
        cases h
      · have hpa' : p.is_active = true := by
          revert hpa; cases p.is_active <;> simp
        by_cases hsame : sub.planId = p.id
        · rw [changePlan_objSome hobj, changePlanOn_samePlan hp hpa' hsame] at h
          cases h
        · rw [changePlan_objSome hobj, changePlanOn_ok_shape hp hpa' hsame] at h ⊢
          have hnid : nid = sub.id := by
            have : Except.ok (ε := String) sub.id = Except.ok nid := h
            injection this with h2
            exact h2.symm
          refine ⟨rfl, by simp [saveSubscription_subs], ?_, sub, p, rfl, rfl,
            hnid, ?_, ?_⟩
          · show ((st.subs.map (fun x =>
                if x.id == ({ sub with planId := p.id, updated_at := t} :
                  Subscription).id
                then { sub with planId := p.id, updated_at := t } else x)).map
              (·.id)) = st.subs.map (·.id)
            exact replace_map_id st.subs _
          · intro x hx hne
            apply List.mem_map.mpr
            refine ⟨x, hx, ?_⟩
            rw [if_neg (by simpa using hne)]
          · refine ⟨{ sub with planId := p.id, updated_at := t }, ?_, rfl, rfl,
              rfl, rfl, rfl, rfl, rfl, rfl, rfl⟩
            apply List.mem_map.mpr
            have hsubm : sub ∈ st.subs := List.mem_of_find?_eq_some hobj
            exact ⟨sub, hsubm, by rw [if_pos (by simp)]⟩

/-- Witness for C8 on concrete inputs: user 7 switches subscription 1
from Basic to Pro at time 2. -/
theorem C8_witness :
    (changePlan exSt1 2 7 1 2).2 = Except.ok 1 ∧
    ((changePlan exSt1 2 7 1 2).1.nextSubId = exSt1.nextSubId ∧
      (changePlan exSt1 2 7 1 2).1.subs.length = exSt1.subs.length ∧
      ((changePlan exSt1 2 7 1 2).1.subs.map (·.id)) =
        exSt1.subs.map (·.id) ∧
      ∃ sub p, getObject exSt1 7 1 = some sub ∧ lookupPlan exSt1 2 = some p ∧
        1 = sub.id ∧
        (∀ x, x ∈ exSt1.subs → x.id ≠ sub.id →
          x ∈ (changePlan exSt1 2 7 1 2).1.subs) ∧
        (∃ x', x' ∈ (changePlan exSt1 2 7 1 2).1.subs ∧ x'.id = sub.id ∧
          x'.planId = p.id ∧ x'.updated_at = 2 ∧
          x'.start_date = sub.start_date ∧ x'.is_active = sub.is_active ∧
          x'.end_date = sub.end_date ∧ x'.user = sub.user ∧
          x'.notes = sub.notes ∧ x'.created_at = sub.created_at)) :=
  ⟨rfl, C8_change_plan_frame rfl⟩

/-- C7 counterexample: the BetaPack plan carries only the inactive
feature "Beta"; the plan-view projection (`PlanViewSet`, plain
`prefetch_related`) lists it anyway, so its features list is not "exactly
the plan's active features sorted by name" — that list is empty
(`feature_count = 0`) while the projection shows 1 entry, an inactive
one. -/
theorem C7_counterexample :
    (∃ fv, fv ∈ (planViewDetail exSt0 exPlanBeta).features ∧
      fv.is_active = false) ∧
    (planViewDetail exSt0 exPlanBeta).feature_count = 0 ∧
    (planViewDetail exSt0 exPlanBeta).features.length = 1 := by
  decide

/-- C7 (amended): in the subscription read view a plan projection's
features list holds exactly the plan's active features sorted by name and
`feature_count` equals its length; in the plan views the features list
holds all of the plan's features sorted by name (inactive ones included,
each carrying its `is_active` flag), while `feature_count` still counts
only the active ones. -/
theorem C7_plan_projection (st : St) (p : Plan) :
    (∀ fv, fv ∈ (planViewForSubscription st p).features ↔
      ∃ f, f ∈ planFeatures st p ∧ f.is_active = true ∧ fv = featureView f) ∧
    List.Sorted (fun a b : FeatureView => a.name ≤ b.name)
      ((planViewForSubscription st p).features) ∧
    (planViewForSubscription st p).feature_count =
      (planViewForSubscription st p).features.length ∧
    (∀ fv, fv ∈ (planViewDetail st p).features ↔
      ∃ f, f ∈ planFeatures st p ∧ fv = featureView f) ∧
    List.Sorted (fun a b : FeatureView => a.name ≤ b.name)
      ((planViewDetail st p).features) ∧
    (planViewDetail st p).feature_count =
      ((planViewDetail st p).features.filter (·.is_active)).length := by
  refine ⟨?_, ?_, ?_, ?_, ?_, ?_⟩
  · intro fv
    constructor
    · intro hv
      obtain ⟨f, hf, hfv⟩ := List.mem_map.mp hv
      have hf' : f ∈ (planFeatures st p).filter (·.is_active) :=
        (List.mem_insertionSort _).mp hf
      obtain ⟨hmem, hact⟩ := List.mem_filter.mp hf'
      exact ⟨f, hmem, by simpa using hact, hfv.symm⟩
    · rintro ⟨f, hmem, hact, rfl⟩
      apply List.mem_map.mpr
      refine ⟨f, ?_, rfl⟩
      rw [List.mem_insertionSort]
      exact List.mem_filter.mpr ⟨hmem, by simpa using hact⟩
  · show List.Sorted _ ((List.insertionSort featureLe
      ((planFeatures st p).filter (·.is_active))).map featureView)
    rw [List.Sorted, List.pairwise_map]
    exact List.sorted_insertionSort featureLe _
  · show activeFeatureCount st p =
      ((List.insertionSort featureLe
        ((planFeatures st p).filter (·.is_active))).map featureView).length
    rw [List.length_map]
    rw [(List.perm_insertionSort featureLe _).length_eq]
    rfl
  · intro fv
    constructor
    · intro hv
      obtain ⟨f, hf, hfv⟩ := List.mem_map.mp hv
      have hmem : f ∈ planFeatures st p := (List.mem_insertionSort _).mp hf
      exact ⟨f, hmem, hfv.symm⟩
    · rintro ⟨f, hmem, rfl⟩
      apply List.mem_map.mpr
      refine ⟨f, ?_, rfl⟩
      rw [List.mem_insertionSort]
      exact hmem
  · show List.Sorted _ ((List.insertionSort featureLe
      (planFeatures st p)).map featureView)
    rw [List.Sorted, List.pairwise_map]
    exact List.sorted_insertionSort featureLe _
  · show activeFeatureCount st p =
      (((List.insertionSort featureLe (planFeatures st p)).map
        featureView).filter (·.is_active)).length
    rw [List.filter_map]
    rw [List.length_map]
    have hperm := (List.perm_insertionSort featureLe (planFeatures st p)).filter
      ((·.is_active) ∘ featureView)
    rw [hperm.length_eq]
    rfl

theorem deactivateExisting_next (st : St) (now uid : Nat) :
    (deactivateExisting st now uid).nextSubId = st.nextSubId := by
  cases hex : firstActiveFor st uid with
  | none => rw [deactivateExisting_none hex]
  | some ex => rw [deactivateExisting_some hex, saveSubscription_next]

/-- C2: with an existing, active target plan, CreateSubscription succeeds
and results in exactly one ACTIVE subscription for the user — the newly
inserted row (`start_date = now`, null `end_date`); the prior active row,
when one exists, is transitioned to INACTIVE with `end_date = now` in the
same atomic step; and any failing call returns with the state entirely
unchanged (all-or-nothing). -/
theorem C2_create_spec {t : Nat} {st : St} (now uid pid : Nat) {p : Plan}
    (hr : Reach t st) (hp : lookupPlan st pid = some p)
    (hpa : p.is_active = true) :
    (∃ nid, (createSubscription st now uid pid).2 = Except.ok nid ∧
      ∃ ns, ns ∈ (createSubscription st now uid pid).1.subs ∧
        ns.id = nid ∧ ns.user = uid ∧ ns.planId = pid ∧
        ns.is_active = true ∧ ns.start_date = now ∧ ns.end_date = none) ∧
    countActive (createSubscription st now uid pid).1 uid = 1 ∧
    (∀ ex, firstActiveFor st uid = some ex →
      ∃ ex', ex' ∈ (createSubscription st now uid pid).1.subs ∧
        ex'.id = ex.id ∧ ex'.is_active = false ∧ ex'.end_date = some now) ∧
    (∀ q e, (createSubscription st now uid q).2 = Except.error e →
      (createSubscription st now uid q).1 = st) := by
  obtain ⟨hcount, hwf, hbound, hnd, hcache⟩ := reach_inv hr
  rw [createSubscription_ok_shape hp hpa]
  refine ⟨?_, ?_, ?_, ?_⟩
  · refine ⟨(deactivateExisting st now uid).nextSubId, rfl, ?_⟩
    refine ⟨newSubRow (deactivateExisting st now uid).nextSubId now uid pid,
      ?_, rfl, rfl, rfl, rfl, rfl, rfl⟩
    show newSubRow (deactivateExisting st now uid).nextSubId now uid pid ∈
      (deactivateExisting st now uid).subs ++
        [newSubRow (deactivateExisting st now uid).nextSubId now uid pid]
    exact List.mem_append.mpr (Or.inr (List.mem_singleton.mpr rfl))
  · cases hex : firstActiveFor st uid with
    | none =>
      rw [deactivateExisting_none hex]
      show ((st.subs ++ [newSubRow st.nextSubId now uid pid]).filter
        (fun s => s.user == uid && s.is_active)).length = 1
      rw [List.filter_append, firstActiveFor_none st uid hex,
        List.length_append]
      simp [newSubRow]
    | some ex =>
      rw [deactivateExisting_some hex]
      obtain ⟨hexm, hexu, hexa⟩ := firstActiveFor_some hex
      have hone := filter_singleton_of_mem
        (fun s => s.user == uid && s.is_active) hexm
        (by simp [hexu, hexa]) (hcount uid)
      have hz := filter_replace_nil (deactivateFields_id ex now "")
        (fun s => s.user == uid && s.is_active)
        (by simp [deactivateFields_user, deactivateFields_is_active]) hone
      show (((st.subs.map (fun x =>
          if x.id == (ex.deactivateFields now "").id
          then ex.deactivateFields now "" else x)) ++
          [newSubRow st.nextSubId now uid pid]).filter
        (fun s => s.user == uid && s.is_active)).length = 1
      rw [List.filter_append, hz, List.length_append]
      simp [newSubRow]
  · intro ex hex
    rw [deactivateExisting_some hex]
    refine ⟨ex.deactivateFields now "", ?_, deactivateFields_id ex now "",
      deactivateFields_is_active ex now "", deactivateFields_end ex now ""⟩
    show ex.deactivateFields now "" ∈
      (st.subs.map (fun x =>
        if x.id == (ex.deactivateFields now "").id
        then ex.deactivateFields now "" else x)) ++
      [newSubRow (saveSubscription st (ex.deactivateFields now "")).nextSubId
        now uid pid]
    apply List.mem_append.mpr
    left
    apply List.mem_map.mpr
    exact ⟨ex, (firstActiveFor_some hex).1,
      by rw [if_pos (by simp [deactivateFields_id])]⟩
  · intro q e he
    exact createSubscription_err_state he

/-- Witness for C2 on concrete inputs: user 7, holding the active Basic
subscription 1 (state `exSt1`), subscribes to the Pro plan at time 2. -/
theorem C2_witness :
    Reach 1 exSt1 ∧ lookupPlan exSt1 2 = some exPlanPro ∧
    exPlanPro.is_active = true ∧
    ((∃ nid, (createSubscription exSt1 2 7 2).2 = Except.ok nid ∧
      ∃ ns, ns ∈ (createSubscription exSt1 2 7 2).1.subs ∧
        ns.id = nid ∧ ns.user = 7 ∧ ns.planId = 2 ∧
        ns.is_active = true ∧ ns.start_date = 2 ∧ ns.end_date = none) ∧
    countActive (createSubscription exSt1 2 7 2).1 7 = 1 ∧
    (∀ ex, firstActiveFor exSt1 7 = some ex →
      ∃ ex', ex' ∈ (createSubscription exSt1 2 7 2).1.subs ∧
        ex'.id = ex.id ∧ ex'.is_active = false ∧ ex'.end_date = some 2) ∧
    (∀ q e, (createSubscription exSt1 2 7 q).2 = Except.error e →
      (createSubscription exSt1 2 7 q).1 = exSt1)) := by
  have hr : Reach 1 exSt1 :=
    Reach.create 1 7 1
      (Reach.init [exFeatureA, exFeatureOff]
        [exPlanBasic, exPlanPro, exPlanOff, exPlanBeta] 1)
      (by decide)
  have hp : lookupPlan exSt1 2 = some exPlanPro := by decide
  have hpa : exPlanPro.is_active = true := by decide
  exact ⟨hr, hp, hpa, C2_create_spec 2 7 2 hr hp hpa⟩

/-- C9: in every reachable state, a subscription-list read or an
active-subscription read executed as user A only returns views of A's own
subscriptions, whether served from the store or from a cache hit (all
cache keys are scoped by the requesting user's id). -/
theorem C9_user_isolation {t : Nat} {st : St} (hr : Reach t st)
    (now A : Nat) :
    (∀ v ∈ (listSubscriptions st now A).2, v.user_email = A) ∧
    (∀ v, (activeSubscriptionRead st now A).2 = Except.ok v →
      v.user_email = A) := by
  have hcache : CacheOwn st.cache := (reach_inv hr).2.2.2.2
  constructor
  · intro v hv
    cases hpg : asListVal (cacheGet st.cache
        (CacheKey.pageListSubscriptions A)) with
    | some v0 =>
      rw [listSubscriptions_pageHit hpg] at hv
      have hval : ∀ w ∈ v0, w.user_email = A :=
        hcache (CacheKey.pageListSubscriptions A) (CacheVal.listVal v0)
          (asListVal_some hpg)
      exact hval v hv
    | none =>
      rw [listSubscriptions_pageMiss hpg] at hv
      cases hlow : asListVal (cacheGet st.cache
          (CacheKey.userSubscriptions A)) with
      | some v0 =>
        rw [listInner_lowHit hlow] at hv
        have hval : ∀ w ∈ v0, w.user_email = A :=
          hcache (CacheKey.userSubscriptions A) (CacheVal.listVal v0)
            (asListVal_some hlow)
        exact hval v hv
      | none =>
        rw [listInner_lowMiss hlow] at hv
        exact listFor_user st now A v hv
  · intro v hv
    cases hhit : asOneVal (cacheGet st.cache
        (CacheKey.activeSubscription A)) with
    | some v0 =>
      rw [activeRead_hit hhit] at hv
      have hvv : Except.ok (ε := String) v0 = Except.ok v := hv
      have hv0 : v0 = v := by injection hvv
      rw [← hv0]
      exact hcache (CacheKey.activeSubscription A) (CacheVal.oneVal v0)
        (asOneVal_some hhit)
    | none =>
      rw [activeRead_miss hhit] at hv
      cases hf : (userSubs st A).filter (fun s => s.is_active) with
      | nil =>
        rw [activeInner_nil hf] at hv
        simp at hv
      | cons s tail =>
        cases tail with
        | nil =>
          rw [activeInner_one hf] at hv
          have hvv : Except.ok (ε := String) (subscriptionView st now s) =
            Except.ok v := hv
          have hv0 : subscriptionView st now s = v := by injection hvv
          rw [← hv0]
          have hsmem : s ∈ (userSubs st A).filter (fun x => x.is_active) := by
            rw [hf]
            exact List.mem_singleton.mpr rfl
          have hsu : s ∈ userSubs st A := (List.mem_filter.mp hsmem).1
          have hu : (s.user == A) = true := (List.mem_filter.mp hsu).2
          show s.user = A
          simpa using hu
        | cons s2 rest =>
          have hmulti : activeInner st now A =
              (st, Except.error "MultipleObjectsReturned") := by
            unfold activeInner
            rw [hf]
          rw [hmulti] at hv
          simp at hv

/-- Witness for C9 at a concrete reachable state: both reads for user 7
in the state where user 7 holds subscription 1. -/
theorem C9_witness :
    Reach 1 exSt1 ∧
    ((∀ v ∈ (listSubscriptions exSt1 2 7).2, v.user_email = 7) ∧
      (∀ v, (activeSubscriptionRead exSt1 2 7).2 = Except.ok v →
        v.user_email = 7)) := by
  have hr : Reach 1 exSt1 :=
    Reach.create 1 7 1
      (Reach.init [exFeatureA, exFeatureOff]
        [exPlanBasic, exPlanPro, exPlanOff, exPlanBeta] 1)
      (by decide)
  exact ⟨hr, C9_user_isolation hr 2 7⟩

/-- C3: the write paths delete the documented low-level per-user cache
keys synchronously, but the list endpoint's additional `cache_page`
whole-response cache is never invalidated by any write.  Failing run,
evaluated on the code: user 7 lists (page cache stores the empty
response), creates a subscription (commit succeeds, both low-level keys
are gone), lists again — the read is served from the stale page cache and
does not reflect the committed write. -/
theorem C3_stale_page_cache :
    (createSubscription exStL1 2 7 1).2 = Except.ok 1 ∧
    cacheGet exStL2.cache (CacheKey.userSubscriptions 7) = none ∧
    cacheGet exStL2.cache (CacheKey.activeSubscription 7) = none ∧
    exStL2.subs.length = 1 ∧
    (listSubscriptions exStL2 3 7).2 = [] := by
  exact ⟨rfl, by decide, by decide, by decide, by decide⟩

/-- Witness for C7 (amended) on concrete inputs: the projections of the
Basic plan in the seeded store. -/
theorem C7_witness :
    (∀ fv, fv ∈ (planViewForSubscription exSt0 exPlanBasic).features ↔
      ∃ f, f ∈ planFeatures exSt0 exPlanBasic ∧ f.is_active = true ∧
        fv = featureView f) ∧
    List.Sorted (fun a b : FeatureView => a.name ≤ b.name)
      ((planViewForSubscription exSt0 exPlanBasic).features) ∧
    (planViewForSubscription exSt0 exPlanBasic).feature_count =
      (planViewForSubscription exSt0 exPlanBasic).features.length ∧
    (∀ fv, fv ∈ (planViewDetail exSt0 exPlanBasic).features ↔
      ∃ f, f ∈ planFeatures exSt0 exPlanBasic ∧ fv = featureView f) ∧
    List.Sorted (fun a b : FeatureView => a.name ≤ b.name)
      ((planViewDetail exSt0 exPlanBasic).features) ∧
    (planViewDetail exSt0 exPlanBasic).feature_count =
      ((planViewDetail exSt0 exPlanBasic).features.filter
        (·.is_active)).length :=
  C7_plan_projection exSt0 exPlanBasic

/-- Witness for C10 on concrete inputs: user 7's list projection in the
state where subscription 1 exists. -/
theorem C10_witness :
    List.Sorted (fun a b : SubscriptionView => b.start_date ≤ a.start_date)
      (listFor exSt1 2 7) ∧
    (∀ v, v ∈ listFor exSt1 2 7 ↔
      ∃ s, s ∈ exSt1.subs ∧ s.user = 7 ∧ v = subscriptionView exSt1 2 s) :=
  C10_list_ordering exSt1 2 7
